import Mathlib

/-!
Shallow embedding of `beam_concrete_app.py`, a parametric geometry
calculator for sizing a half-cylindrical concrete shell around a
rectangular beam.  Python floats are modelled as real numbers; numpy
arrays as Lean lists (2-D arrays as lists of lists).
-/

namespace BeamApp

noncomputable section

/-- Conversion factor, source line 10: `INCH_TO_M = 0.0254`. -/
def INCH_TO_M : ℝ := 0.0254

/-- The alternate-unit tag, the string literal used at the call sites. -/
def inchUnit : String := "in"

/-- An arbitrary other unit tag used only to exercise the fall-through branch. -/
def cmUnit : String := "cm"

/-- Source lines 12-16: `to_si(val, from_unit)`. -/
def to_si (val : ℝ) (from_unit : String) : ℝ :=
  if from_unit = "in" then val * INCH_TO_M else val

/-- Source lines 18-22: `from_si(val, to_unit)`. -/
def from_si (val : ℝ) (to_unit : String) : ℝ :=
  if to_unit = "in" then val / INCH_TO_M else val

/-- Source line 40: `diag = np.sqrt(x**2 + (z/2)**2)` where `x` is the beam
width and `z` the beam height. -/
def diag (x z : ℝ) : ℝ := Real.sqrt (x ^ 2 + (z / 2) ^ 2)

/-- Source line 41: `a = diag + clearance`, the required inner radius
(the spec calls this function `compute_inner_radius(width, height, clearance)`). -/
def compute_inner_radius (x z clearance : ℝ) : ℝ := diag x z + clearance

/-- Embedding of `np.linspace(start, stop, num)`: `num` evenly spaced samples,
sample `i` being `start + i * (stop - start) / (num - 1)`. -/
def linspace (start stop : ℝ) (num : ℕ) : List ℝ :=
  (List.range num).map (fun (i : ℕ) => start + (i : ℝ) * (stop - start) / ((num : ℝ) - 1))

/-- Source line 58: `theta = np.linspace(-np.pi/2, np.pi/2, 100)`. -/
def theta : List ℝ := linspace (-(Real.pi / 2)) (Real.pi / 2) 100

/-- Source line 59: `Z_shell = np.linspace(0, shell_height, 30)`. -/
def Z_shell (shell_height : ℝ) : List ℝ := linspace 0 shell_height 30

/-- Source line 60, first output of `np.meshgrid(theta, Z_shell)`:
`Theta[i][j] = theta[j]`, shape 30 x 100. -/
def Theta (shell_height : ℝ) : List (List ℝ) :=
  (Z_shell shell_height).map (fun _ => theta)

/-- Source line 60, second output of `np.meshgrid(theta, Z_shell)`:
`Zgrid_shell[i][j] = Z_shell[i]`, shape 30 x 100. -/
def Zgrid_shell (shell_height : ℝ) : List (List ℝ) :=
  (Z_shell shell_height).map (fun zv => theta.map (fun _ => zv))

/-- Source line 61: `X_inner = a * np.cos(Theta)`. -/
def X_inner (a shell_height : ℝ) : List (List ℝ) :=
  (Theta shell_height).map (fun row => row.map (fun th => a * Real.cos th))

/-- Source line 62: `Y_inner = a * np.sin(Theta)`. -/
def Y_inner (a shell_height : ℝ) : List (List ℝ) :=
  (Theta shell_height).map (fun row => row.map (fun th => a * Real.sin th))

/-- Source line 63: `Z_inner = Zgrid_shell`. -/
def Z_inner (shell_height : ℝ) : List (List ℝ) := Zgrid_shell shell_height

/-- Source line 77: `X_outer = (a + shell_thickness) * np.cos(Theta)`. -/
def X_outer (a shell_thickness shell_height : ℝ) : List (List ℝ) :=
  (Theta shell_height).map (fun row => row.map (fun th => (a + shell_thickness) * Real.cos th))

/-- Source line 78: `Y_outer = (a + shell_thickness) * np.sin(Theta)`. -/
def Y_outer (a shell_thickness shell_height : ℝ) : List (List ℝ) :=
  (Theta shell_height).map (fun row => row.map (fun th => (a + shell_thickness) * Real.sin th))

/-- Source line 79: `Z_outer = Zgrid_shell`. -/
def Z_outer (shell_height : ℝ) : List (List ℝ) := Zgrid_shell shell_height

/-- Pointwise radial distance of the points of a surface from the vertical
axis: entry `(i,j)` is `sqrt (X[i][j]^2 + Y[i][j]^2)`. -/
def radiusGrid (X Y : List (List ℝ)) : List (List ℝ) :=
  (X.zip Y).map (fun p => (p.1.zip p.2).map (fun q => Real.sqrt (q.1 ^ 2 + q.2 ^ 2)))

/-- Source lines 107-110: the 8 corners of the beam box, width `x`,
length `y`, height `z`, back face at the plane x = 0. -/
def beam_vertices (x y z : ℝ) : List (ℝ × ℝ × ℝ) :=
  [(0, -y / 2, 0), (x, -y / 2, 0), (x, y / 2, 0), (0, y / 2, 0),
   (0, -y / 2, z), (x, -y / 2, z), (x, y / 2, z), (0, y / 2, z)]

/-- Source line 112. -/
def beam_i : List ℕ := [0, 0, 1, 1, 2, 2, 3, 3, 4, 4, 5, 5]

/-- Source line 113. -/
def beam_j : List ℕ := [1, 3, 2, 0, 3, 1, 0, 2, 5, 7, 6, 4]

/-- Source line 114. -/
def beam_k : List ℕ := [3, 2, 3, 1, 1, 0, 2, 0, 7, 6, 7, 5]

/-- The triangle list of the beam mesh: triple `t` is
`(beam_i[t], beam_j[t], beam_k[t])` (the `i=`, `j=`, `k=` arguments of the
`Mesh3d` trace, source lines 119-121). -/
def beam_triangles : List (ℕ × ℕ × ℕ) :=
  (beam_i.zip (beam_j.zip beam_k)).map (fun p => (p.1, p.2.1, p.2.2))

/-- Source line 143: `beam_widths = np.linspace(to_si(2.0, 'in'), to_si(12.0, 'in'), 50)`. -/
def beam_widths : List ℝ := linspace (to_si 2 inchUnit) (to_si 12 inchUnit) 50

/-- Source line 144: `radii = np.sqrt(beam_widths**2 + (z/2)**2) + clearance`,
evaluated elementwise over `beam_widths` at the current height `z` and clearance. -/
def radii (z clearance : ℝ) : List ℝ :=
  beam_widths.map (fun w => Real.sqrt (w ^ 2 + (z / 2) ^ 2) + clearance)

/-- The sweep table plotted by the Scatter trace (source lines 149-155):
widths paired with the corresponding required radii. -/
def sweep_radius_vs_width (z clearance : ℝ) : List (ℝ × ℝ) :=
  beam_widths.zip (radii z clearance)

/-- C1: the computed inner radius does NOT always clear the beam's farthest
corner.  At width 1, length 4, height 2, clearance 0, the beam vertex
(1, 2, 0) lies at radial distance `sqrt (1^2 + 2^2) = sqrt 5` from the
shell's vertical axis, strictly more than `inner_radius - clearance = sqrt 2`
(the code computes the radius from the height, not the length). -/
theorem c1_farthest_corner_not_cleared :
    ((1 : ℝ), (2 : ℝ), (0 : ℝ)) ∈ beam_vertices 1 4 2 ∧
    compute_inner_radius 1 2 0 - 0 < Real.sqrt (1 ^ 2 + 2 ^ 2) := by
  constructor
  · norm_num [beam_vertices]
  · have h5 : ((1 : ℝ) ^ 2 + 2 ^ 2) = 5 := by norm_num
    have h2 : ((1 : ℝ) ^ 2 + (2 / 2) ^ 2) = 2 := by norm_num
    rw [compute_inner_radius, diag, h5, h2]
    have := Real.sqrt_lt_sqrt (by norm_num : (0:ℝ) ≤ 2) (by norm_num : (2:ℝ) < 5)
    linarith

/-- C2: the beam mesh does have 8 vertices and 12 index triples, but the
triangulation does NOT cover all 6 faces and is not closed: every triple
uses only bottom vertices (indices at most 3) or only top vertices (indices
at least 4), so the four side faces are uncovered, and triples 3 and 11 are
degenerate (a repeated vertex). -/
theorem c2_beam_triangulation_not_closed :
    beam_triangles.length = 12 ∧
    (beam_vertices 1 1 1).length = 8 ∧
    (beam_triangles.all (fun t =>
        decide (t.1 ≤ 3 ∧ t.2.1 ≤ 3 ∧ t.2.2 ≤ 3) ||
        decide (4 ≤ t.1 ∧ 4 ≤ t.2.1 ∧ 4 ≤ t.2.2)) = true) ∧
    beam_triangles[3]? = some (1, 0, 1) ∧
    beam_triangles[11]? = some (5, 4, 5) :=
  ⟨by decide, rfl, by decide, by decide, by decide⟩

/-- C3: for all inputs, `compute_inner_radius width height clearance` equals
`sqrt (width^2 + (height/2)^2) + clearance`, and in the degenerate case
width = height = 0 it returns exactly the clearance. -/
theorem c3_compute_inner_radius_formula :
    (∀ w h c : ℝ, compute_inner_radius w h c = Real.sqrt (w ^ 2 + (h / 2) ^ 2) + c) ∧
    (∀ c : ℝ, compute_inner_radius 0 0 c = c) := by
  refine ⟨fun w h c => rfl, fun c => ?_⟩
  simp [compute_inner_radius, diag]

/-- C4 counterexample: at the degenerate admissible input
width = height = clearance = 0 the computed radius is 0, so neither
`inner_radius > width` nor `inner_radius > clearance` holds. -/
theorem c4_invariant_fails_at_origin :
    ¬ ((0 : ℝ) < compute_inner_radius 0 0 0) := by
  have h : compute_inner_radius 0 0 0 = 0 := by
    simp [compute_inner_radius, diag]
  rw [h]
  exact lt_irrefl 0

/-- C4 (amended): for positive width and height and non-negative clearance
(the domain the input widgets actually enforce), the computed radius strictly
exceeds both the width and the clearance. -/
theorem c4_radius_margin (w h c : ℝ) (hw : 0 < w) (hh : 0 < h) (hc : 0 ≤ c) :
    w < compute_inner_radius w h c ∧ c < compute_inner_radius w h c := by
  unfold compute_inner_radius diag
  constructor
  · have h1 : w < Real.sqrt (w ^ 2 + (h / 2) ^ 2) :=
      (Real.lt_sqrt hw.le).mpr (by nlinarith)
    linarith
  · have h2 : (0 : ℝ) < Real.sqrt (w ^ 2 + (h / 2) ^ 2) :=
      Real.sqrt_pos.mpr (by positivity)
    linarith

/-- Witness for C4 at width 1, height 2, clearance 0. -/
theorem c4_witness :
    (0 : ℝ) < 1 ∧ (0 : ℝ) < 2 ∧ (0 : ℝ) ≤ 0 ∧
    ((1 : ℝ) < compute_inner_radius 1 2 0 ∧ (0 : ℝ) < compute_inner_radius 1 2 0) :=
  ⟨by norm_num, by norm_num, le_refl 0,
   c4_radius_margin 1 2 0 (by norm_num) (by norm_num) (le_refl 0)⟩

/-- C5: converting a value to base units with the alternate-unit tag and back
is the identity, in both directions, exactly (over the reals). -/
theorem c5_unit_round_trip :
    ∀ v : ℝ, from_si (to_si v inchUnit) inchUnit = v ∧
      to_si (from_si v inchUnit) inchUnit = v := by
  intro v
  have hne : INCH_TO_M ≠ 0 := by norm_num [INCH_TO_M]
  constructor
  · simp only [to_si, from_si, inchUnit, if_pos rfl]
    exact mul_div_cancel_right₀ v hne
  · simp only [to_si, from_si, inchUnit, if_pos rfl]
    exact div_mul_cancel₀ v hne

/-- C9: for any unit tag other than the alternate unit, both conversions fall
through to the identity branch and return the value unchanged. -/
theorem c9_unknown_unit_identity :
    ∀ (v : ℝ) (u : String), u ≠ inchUnit → to_si v u = v ∧ from_si v u = v := by
  intro v u hu
  rw [inchUnit] at hu
  exact ⟨by rw [to_si, if_neg hu], by rw [from_si, if_neg hu]⟩

/-- Witness for C9 at a concrete other unit tag. -/
theorem c9_witness :
    cmUnit ≠ inchUnit ∧ to_si 5 cmUnit = 5 ∧ from_si 5 cmUnit = 5 := by
  refine ⟨by decide, ?_, ?_⟩
  · exact (c9_unknown_unit_identity 5 cmUnit (by decide)).1
  · exact (c9_unknown_unit_identity 5 cmUnit (by decide)).2

/-- C6: the computed radius is strictly increasing in the width (for
non-negative widths), in the height (for non-negative heights), and in the
clearance, each argument taken separately. -/
theorem c6_radius_strict_mono :
    (∀ w₁ w₂ h c : ℝ, 0 ≤ w₁ → w₁ < w₂ →
      compute_inner_radius w₁ h c < compute_inner_radius w₂ h c) ∧
    (∀ w h₁ h₂ c : ℝ, 0 ≤ h₁ → h₁ < h₂ →
      compute_inner_radius w h₁ c < compute_inner_radius w h₂ c) ∧
    (∀ w h c₁ c₂ : ℝ, c₁ < c₂ →
      compute_inner_radius w h c₁ < compute_inner_radius w h c₂) := by
  refine ⟨fun w₁ w₂ h c h0 hlt => ?_, fun w h₁ h₂ c h0 hlt => ?_,
    fun w h c₁ c₂ hlt => ?_⟩
  · have hs : Real.sqrt (w₁ ^ 2 + (h / 2) ^ 2) < Real.sqrt (w₂ ^ 2 + (h / 2) ^ 2) :=
      Real.sqrt_lt_sqrt (by positivity) (by nlinarith)
    unfold compute_inner_radius diag
    linarith
  · have hs : Real.sqrt (w ^ 2 + (h₁ / 2) ^ 2) < Real.sqrt (w ^ 2 + (h₂ / 2) ^ 2) :=
      Real.sqrt_lt_sqrt (by positivity) (by nlinarith)
    unfold compute_inner_radius diag
    linarith
  · unfold compute_inner_radius
    linarith

/-- Witness for C6 at concrete inputs for each of the three arguments. -/
theorem c6_witness :
    (0 : ℝ) ≤ 1 ∧ (1 : ℝ) < 2 ∧
    compute_inner_radius 1 1 1 < compute_inner_radius 2 1 1 ∧
    compute_inner_radius 1 1 1 < compute_inner_radius 1 2 1 ∧
    compute_inner_radius 1 1 1 < compute_inner_radius 1 1 2 :=
  ⟨by norm_num, by norm_num,
   c6_radius_strict_mono.1 1 2 1 1 (by norm_num) (by norm_num),
   c6_radius_strict_mono.2.1 1 1 2 1 (by norm_num) (by norm_num),
   c6_radius_strict_mono.2.2 1 1 1 2 (by norm_num)⟩

/-- Length of the width sample list. -/
lemma beam_widths_length : beam_widths.length = 50 := by
  rw [beam_widths, linspace, List.length_map, List.length_range]

/-- Length of the radii list. -/
lemma radii_length (z c : ℝ) : (radii z c).length = 50 := by
  rw [radii, List.length_map, beam_widths_length]

/-- The first components of the sweep table are exactly the width samples. -/
lemma sweep_map_fst (z c : ℝ) :
    (sweep_radius_vs_width z c).map Prod.fst = beam_widths := by
  refine List.map_fst_zip _ _ ?_
  rw [beam_widths_length, radii_length]

/-- The second components of the sweep table are exactly the radii. -/
lemma sweep_map_snd (z c : ℝ) :
    (sweep_radius_vs_width z c).map Prod.snd = radii z c := by
  refine List.map_snd_zip _ _ ?_
  rw [beam_widths_length, radii_length]

/-- C7: the sweep produces exactly 50 width samples, the first being
`to_si 2 'in'` and the last `to_si 12 'in'`, in strictly increasing order
with constant spacing of one 49th of the interval, and pairs every width `w`
with `compute_inner_radius w height clearance` at the current height and
clearance. -/
theorem c7_sweep_properties (z c : ℝ) :
    (sweep_radius_vs_width z c).length = 50 ∧
    ((sweep_radius_vs_width z c).map Prod.fst)[0]? = some (to_si 2 inchUnit) ∧
    ((sweep_radius_vs_width z c).map Prod.fst)[49]? = some (to_si 12 inchUnit) ∧
    ((sweep_radius_vs_width z c).map Prod.fst).Pairwise (· < ·) ∧
    List.Chain' (fun u v => v = u + (to_si 12 inchUnit - to_si 2 inchUnit) / 49)
      ((sweep_radius_vs_width z c).map Prod.fst) ∧
    (sweep_radius_vs_width z c).map Prod.snd =
      ((sweep_radius_vs_width z c).map Prod.fst).map
        (fun w => compute_inner_radius w z c) := by
  refine ⟨?_, ?_, ?_, ?_, ?_, ?_⟩
  · rw [sweep_radius_vs_width, List.length_zip, beam_widths_length, radii_length]
    norm_num
  · rw [sweep_map_fst, beam_widths, linspace, List.getElem?_map]
    simp [List.getElem?_range]
  · rw [sweep_map_fst, beam_widths, linspace, List.getElem?_map]
    simp [List.getElem?_range]
    norm_num
  · rw [sweep_map_fst, beam_widths, linspace, List.pairwise_map]
    refine (List.pairwise_lt_range 50).imp ?_
    intro i j hij
    have hd : (0 : ℝ) <
        (to_si 12 inchUnit - to_si 2 inchUnit) / ((50 : ℝ) - 1) := by
      apply div_pos
      · norm_num [to_si, inchUnit, INCH_TO_M]
      · norm_num
    have hc : (i : ℝ) < (j : ℝ) := by exact_mod_cast hij
    simp only [mul_div_assoc]
    exact add_lt_add_left (mul_lt_mul_of_pos_right hc hd) _
  · rw [sweep_map_fst, beam_widths, linspace, List.chain'_map]
    have h50 : (50 : ℕ) = 49 + 1 := by norm_num
    rw [h50, List.chain'_range_succ]
    intro m hm
    push_cast
    ring_nf
  · rw [sweep_map_snd, sweep_map_fst, radii]
    rfl

/-- Number of angular samples. -/
lemma theta_length : theta.length = 100 := by
  rw [theta, linspace, List.length_map, List.length_range]

/-- Number of elevation samples. -/
lemma Z_shell_length (H : ℝ) : (Z_shell H).length = 30 := by
  rw [Z_shell, linspace, List.length_map, List.length_range]

/-- Shape of any grid obtained by mapping a scalar function over `Theta`. -/
lemma mapped_Theta_shape (f : ℝ → ℝ) (H : ℝ) :
    ((Theta H).map (fun row => row.map f)).map List.length =
      List.replicate 30 100 := by
  rw [Theta, List.map_map, List.map_map]
  have h : ∀ zv : ℝ,
      (List.length ∘ (fun row => row.map f) ∘ (fun _ : ℝ => theta)) zv = 100 := by
    intro zv
    simp [theta_length]
  calc (Z_shell H).map (List.length ∘ (fun row => row.map f) ∘ (fun _ : ℝ => theta))
      = (Z_shell H).map (fun _ => 100) := List.map_congr_left (fun zv _ => h zv)
    _ = List.replicate (Z_shell H).length 100 := List.map_const' _ _
    _ = List.replicate 30 100 := by rw [Z_shell_length]

/-- Shape of the elevation grid. -/
lemma Zgrid_shell_shape (H : ℝ) :
    (Zgrid_shell H).map List.length = List.replicate 30 100 := by
  rw [Zgrid_shell, List.map_map]
  calc (Z_shell H).map (List.length ∘ fun zv => theta.map (fun _ => zv))
      = (Z_shell H).map (fun _ => 100) := by
        refine List.map_congr_left (fun zv _ => ?_)
        simp [theta_length]
    _ = List.replicate (Z_shell H).length 100 := List.map_const' _ _
    _ = List.replicate 30 100 := by rw [Z_shell_length]

/-- Radial distance of every sampled point of a half-cylinder of radius `r`. -/
lemma radiusGrid_halfcyl (r H : ℝ) (hr : 0 ≤ r) :
    radiusGrid ((Theta H).map (fun row => row.map (fun th => r * Real.cos th)))
        ((Theta H).map (fun row => row.map (fun th => r * Real.sin th))) =
      List.replicate 30 (List.replicate 100 r) := by
  rw [radiusGrid, List.zip_map', List.map_map]
  have hpt : ∀ th : ℝ,
      Real.sqrt ((r * Real.cos th) ^ 2 + (r * Real.sin th) ^ 2) = r := by
    intro th
    have h1 : (r * Real.cos th) ^ 2 + (r * Real.sin th) ^ 2 = r ^ 2 := by
      linear_combination r ^ 2 * Real.sin_sq_add_cos_sq th
    rw [h1, Real.sqrt_sq hr]
  have hrow : ∀ row : List ℝ,
      (((row.map (fun th => r * Real.cos th)).zip
          (row.map (fun th => r * Real.sin th))).map
        (fun q => Real.sqrt (q.1 ^ 2 + q.2 ^ 2))) = List.replicate row.length r := by
    intro row
    rw [List.zip_map', List.map_map]
    calc row.map ((fun q : ℝ × ℝ => Real.sqrt (q.1 ^ 2 + q.2 ^ 2)) ∘
            fun th => (r * Real.cos th, r * Real.sin th))
        = row.map (fun _ => r) := List.map_congr_left (fun th _ => hpt th)
      _ = List.replicate row.length r := List.map_const' _ _
  rw [Theta, List.map_map]
  calc (Z_shell H).map ((fun p : List ℝ × List ℝ =>
          (p.1.zip p.2).map (fun q => Real.sqrt (q.1 ^ 2 + q.2 ^ 2))) ∘
        ((fun row => (row.map (fun th => r * Real.cos th),
            row.map (fun th => r * Real.sin th))) ∘ (fun _ : ℝ => theta)))
      = (Z_shell H).map (fun _ => List.replicate 100 r) := by
        refine List.map_congr_left (fun zv _ => ?_)
        have := hrow theta
        simp only [Function.comp] at this ⊢
        rw [this, theta_length]
    _ = List.replicate (Z_shell H).length (List.replicate 100 r) := List.map_const' _ _
    _ = List.replicate 30 (List.replicate 100 r) := by rw [Z_shell_length]

/-- C8: both half-cylindrical surfaces are sampled on the shared uniform
30 x 100 grid of 100 angles spanning [-pi/2, pi/2] in steps of pi/99 by 30
elevations spanning [0, shell_height] in steps of shell_height/29; the x, y, z
grids of each surface all have shape 30 x 100; the outer grids are obtained
from the inner ones by replacing the radius `a` with `a + shell_thickness`
on the identical sampling, the elevation grids being literally the same; and
every sampled inner point lies at radial distance `a` from the vertical axis,
every sampled outer point at radial distance `a + shell_thickness`. -/
theorem c8_shell_surface_grids (a t H : ℝ) (ha : 0 ≤ a) (ht : 0 ≤ t) :
    (X_inner a H).map List.length = List.replicate 30 100 ∧
    (Y_inner a H).map List.length = List.replicate 30 100 ∧
    (Z_inner H).map List.length = List.replicate 30 100 ∧
    (X_outer a t H).map List.length = List.replicate 30 100 ∧
    (Y_outer a t H).map List.length = List.replicate 30 100 ∧
    (Z_outer H).map List.length = List.replicate 30 100 ∧
    X_outer a t H = X_inner (a + t) H ∧
    Y_outer a t H = Y_inner (a + t) H ∧
    Z_outer H = Z_inner H ∧
    theta.length = 100 ∧
    theta[0]? = some (-(Real.pi / 2)) ∧
    theta[99]? = some (Real.pi / 2) ∧
    List.Chain' (fun u v => v = u + Real.pi / 99) theta ∧
    (Z_shell H).length = 30 ∧
    (Z_shell H)[0]? = some 0 ∧
    (Z_shell H)[29]? = some H ∧
    List.Chain' (fun u v => v = u + H / 29) (Z_shell H) ∧
    radiusGrid (X_inner a H) (Y_inner a H) =
      List.replicate 30 (List.replicate 100 a) ∧
    radiusGrid (X_outer a t H) (Y_outer a t H) =
      List.replicate 30 (List.replicate 100 (a + t)) := by
  refine ⟨mapped_Theta_shape _ H, mapped_Theta_shape _ H, Zgrid_shell_shape H,
    mapped_Theta_shape _ H, mapped_Theta_shape _ H, Zgrid_shell_shape H,
    rfl, rfl, rfl, theta_length, ?_, ?_, ?_, Z_shell_length H, ?_, ?_, ?_,
    radiusGrid_halfcyl a H ha, radiusGrid_halfcyl (a + t) H (by linarith)⟩
  · rw [theta, linspace, List.getElem?_map]
    simp [List.getElem?_range]
  · rw [theta, linspace, List.getElem?_map]
    simp [List.getElem?_range]
    norm_num
    ring_nf
  · rw [theta, linspace, List.chain'_map]
    have h100 : (100 : ℕ) = 99 + 1 := by norm_num
    rw [h100, List.chain'_range_succ]
    intro m hm
    push_cast
    ring_nf
  · rw [Z_shell, linspace, List.getElem?_map]
    simp [List.getElem?_range]
  · rw [Z_shell, linspace, List.getElem?_map]
    simp [List.getElem?_range]
    norm_num
  · rw [Z_shell, linspace, List.chain'_map]
    have h30 : (30 : ℕ) = 29 + 1 := by norm_num
    rw [h30, List.chain'_range_succ]
    intro m hm
    push_cast
    ring_nf

/-- Witness for C8 at inner radius 1, thickness 2, shell height 5. -/
theorem c8_witness :
    (0 : ℝ) ≤ 1 ∧ (0 : ℝ) ≤ 2 ∧
    radiusGrid (X_inner 1 5) (Y_inner 1 5) =
      List.replicate 30 (List.replicate 100 1) ∧
    radiusGrid (X_outer 1 2 5) (Y_outer 1 2 5) =
      List.replicate 30 (List.replicate 100 (1 + 2)) := by
  obtain ⟨-, -, -, -, -, -, -, -, -, -, -, -, -, -, -, -, -, h18, h19⟩ :=
    c8_shell_surface_grids 1 2 5 (by norm_num) (by norm_num)
  exact ⟨by norm_num, by norm_num, h18, h19⟩

/-- Every sampled angle lies in the closed interval [-pi/2, pi/2]. -/
lemma theta_mem_bounds : ∀ th ∈ theta, -(Real.pi / 2) ≤ th ∧ th ≤ Real.pi / 2 := by
  intro th hth
  rw [theta, linspace] at hth
  obtain ⟨j, hj, rfl⟩ := List.mem_map.mp hth
  rw [List.mem_range] at hj
  have hpi := Real.pi_pos
  have hj' : (j : ℝ) ≤ 99 := by exact_mod_cast Nat.lt_succ_iff.mp hj
  have hj0 : (0 : ℝ) ≤ (j : ℝ) := Nat.cast_nonneg j
  constructor
  · have : (0 : ℝ) ≤ (j : ℝ) * (Real.pi / 2 - -(Real.pi / 2)) / ((100 : ℝ) - 1) := by
      apply div_nonneg _ (by norm_num)
      apply mul_nonneg hj0 (by linarith)
    linarith
  · have h99 : ((100 : ℕ) : ℝ) - 1 = 99 := by norm_num
    rw [h99]
    have hstep : (j : ℝ) * (Real.pi / 2 - -(Real.pi / 2)) / 99 ≤ Real.pi := by
      rw [div_le_iff₀ (by norm_num : (0:ℝ) < 99)]
      nlinarith
    linarith

/-- Nonnegativity of every x sample of a half-cylinder grid of radius `r`. -/
lemma x_grid_nonneg (r H : ℝ) (hr : 0 ≤ r) :
    ((Theta H).map (fun row => row.map (fun th => r * Real.cos th))).Forall
      (fun row => row.Forall (fun v => 0 ≤ v)) := by
  rw [List.forall_iff_forall_mem]
  intro row hrow
  rw [List.forall_iff_forall_mem]
  intro v hv
  obtain ⟨row0, hrow0, rfl⟩ := List.mem_map.mp hrow
  obtain ⟨th, hth, rfl⟩ := List.mem_map.mp hv
  rw [Theta] at hrow0
  obtain ⟨zv, hzv, rfl⟩ := List.mem_map.mp hrow0
  have hb := theta_mem_bounds th hth
  exact mul_nonneg hr (Real.cos_nonneg_of_mem_Icc ⟨hb.1, hb.2⟩)

/-- C10: every point of the inner and outer shell surface meshes has
x-coordinate at least 0, and every beam vertex has x-coordinate between 0
and the beam width. -/
theorem c10_half_space (a t H w l h : ℝ) (ha : 0 ≤ a) (ht : 0 ≤ t) (hw : 0 ≤ w) :
    (X_inner a H).Forall (fun row => row.Forall (fun v => 0 ≤ v)) ∧
    (X_outer a t H).Forall (fun row => row.Forall (fun v => 0 ≤ v)) ∧
    (beam_vertices w l h).Forall (fun v => 0 ≤ v.1 ∧ v.1 ≤ w) := by
  refine ⟨x_grid_nonneg a H ha, x_grid_nonneg (a + t) H (by linarith), ?_⟩
  simp [beam_vertices, List.Forall, hw]

/-- Witness for C10 at radius 1, thickness 1, height 1, unit beam. -/
theorem c10_witness :
    (0 : ℝ) ≤ 1 ∧
    (X_inner 1 1).Forall (fun row => row.Forall (fun v => 0 ≤ v)) ∧
    (X_outer 1 1 1).Forall (fun row => row.Forall (fun v => 0 ≤ v)) ∧
    (beam_vertices 1 1 1).Forall (fun v => 0 ≤ v.1 ∧ v.1 ≤ 1) := by
  obtain ⟨h1, h2, h3⟩ :=
    c10_half_space 1 1 1 1 1 1 (by norm_num) (by norm_num) (by norm_num)
  exact ⟨by norm_num, h1, h2, h3⟩

end

end BeamApp
